import Mathlib

/-!
Verification of the event bus of the agentic-agile system
(`app/core/event_bus.py`): envelope codec, publish retry/backoff,
consumer loop with per-message retry, dead-letter store and the
introspection queries.  Python `async` methods are embedded as pure
functions: broker interactions (`xadd`, `xreadgroup`, `xrevrange`,
`xgroup_create`) are parametrised by their outcomes, `await sleep(d)`
is recorded as the rational `d` in a trace, and exceptions become
`Except`/`Option` results.
-/

namespace EventBus

/-- Event types of the closed enumeration `EventType(str, Enum)`. -/
inductive EventType
  | AGENT_REGISTERED
  | AGENT_HEARTBEAT
  | AGENT_TRIGGERED
  | AGENT_COMPLETED
  | AGENT_ERROR
  | GIT_ISSUE_CREATED
  | GIT_ISSUE_UPDATED
  | GIT_PR_CREATED
  | GIT_PR_UPDATED
  | GIT_PUSH
  | GIT_RELEASE
  | WORKFLOW_STARTED
  | WORKFLOW_COMPLETED
  | WORKFLOW_FAILED
  | WELLNESS_CHECKIN
  | WELLNESS_ALERT
  | SYSTEM_HEALTH
  | SYSTEM_MAINTENANCE
deriving DecidableEq, Repr

/-- The string value of each enum member (`EventType.X.value`). -/
def EventType.toStr : EventType → String
  | .AGENT_REGISTERED => "agent.registered"
  | .AGENT_HEARTBEAT => "agent.heartbeat"
  | .AGENT_TRIGGERED => "agent.triggered"
  | .AGENT_COMPLETED => "agent.completed"
  | .AGENT_ERROR => "agent.error"
  | .GIT_ISSUE_CREATED => "git.issue.created"
  | .GIT_ISSUE_UPDATED => "git.issue.updated"
  | .GIT_PR_CREATED => "git.pr.created"
  | .GIT_PR_UPDATED => "git.pr.updated"
  | .GIT_PUSH => "git.push"
  | .GIT_RELEASE => "git.release"
  | .WORKFLOW_STARTED => "workflow.started"
  | .WORKFLOW_COMPLETED => "workflow.completed"
  | .WORKFLOW_FAILED => "workflow.failed"
  | .WELLNESS_CHECKIN => "wellness.checkin"
  | .WELLNESS_ALERT => "wellness.alert"
  | .SYSTEM_HEALTH => "system.health"
  | .SYSTEM_MAINTENANCE => "system.maintenance"

/-- Constructing `EventType(s)` from a string: `some` on a member value,
`none` models the `ValueError` Python raises on an unknown value. -/
def EventType.ofString? (s : String) : Option EventType :=
  if s = "agent.registered" then some .AGENT_REGISTERED
  else if s = "agent.heartbeat" then some .AGENT_HEARTBEAT
  else if s = "agent.triggered" then some .AGENT_TRIGGERED
  else if s = "agent.completed" then some .AGENT_COMPLETED
  else if s = "agent.error" then some .AGENT_ERROR
  else if s = "git.issue.created" then some .GIT_ISSUE_CREATED
  else if s = "git.issue.updated" then some .GIT_ISSUE_UPDATED
  else if s = "git.pr.created" then some .GIT_PR_CREATED
  else if s = "git.pr.updated" then some .GIT_PR_UPDATED
  else if s = "git.push" then some .GIT_PUSH
  else if s = "git.release" then some .GIT_RELEASE
  else if s = "workflow.started" then some .WORKFLOW_STARTED
  else if s = "workflow.completed" then some .WORKFLOW_COMPLETED
  else if s = "workflow.failed" then some .WORKFLOW_FAILED
  else if s = "wellness.checkin" then some .WELLNESS_CHECKIN
  else if s = "wellness.alert" then some .WELLNESS_ALERT
  else if s = "system.health" then some .SYSTEM_HEALTH
  else if s = "system.maintenance" then some .SYSTEM_MAINTENANCE
  else none

/-- Priority levels of `EventPriority(str, Enum)`. -/
inductive EventPriority
  | LOW
  | NORMAL
  | HIGH
  | CRITICAL
deriving DecidableEq, Repr

/-- The string value of each priority member. -/
def EventPriority.toStr : EventPriority → String
  | .LOW => "low"
  | .NORMAL => "normal"
  | .HIGH => "high"
  | .CRITICAL => "critical"

/-- `RetryConfig` dataclass.  Delays are modelled as rationals. -/
structure RetryConfig where
  max_attempts : Nat
  base_delay : ℚ
  max_delay : ℚ
  exponential_base : ℚ
deriving DecidableEq, Repr

/-- The default `RetryConfig()` (3 attempts, base 1.0s, cap 60.0s, base 2.0). -/
def RetryConfig.default : RetryConfig := ⟨3, 1, 60, 2⟩

/-- Opaque event payload: the `data` dict, kept as an association list of
string keys to string-rendered values (its internal shape is never
inspected by the bus). -/
abbrev EventData := List (String × String)

/-- The event envelope built by `publish`: the dict that is
`json.dumps`-ed into the stream record's `event` field. -/
structure Event where
  id : String
  type : EventType
  data : EventData
  priority : EventPriority
  source : Option String
  target : Option String
  timestamp : String
  version : String
deriving DecidableEq, Repr

/-- Wire form of the serialized `event` field of a record.  `obj e` is
the JSON text produced by `json.dumps` on envelope `e`, `empty` is the
text of the empty object (the `b"\x7b\x7d"` default used when the field is
absent), and `bad s` is text on which `json.loads` raises
`JSONDecodeError`. -/
inductive Wire
  | obj (e : Event)
  | empty
  | bad (s : String)
deriving DecidableEq, Repr

/-- Result of `json.loads` on a wire value: `none` models the
`JSONDecodeError`, `some (some e)` a parse producing envelope `e`,
`some none` a parse producing a JSON object that is not an envelope. -/
def Wire.parse : Wire → Option (Option Event)
  | .obj e => some (some e)
  | .empty => some none
  | .bad _ => none

/-- The field map of a claimed stream record as seen by
`_process_message`.  `none` in a component means the key is absent from
the record. -/
structure MsgFields where
  event : Option Wire
  type : Option String
  priority : Option String
  source : Option String
  target : Option String
  attempt : Option Nat
deriving DecidableEq, Repr

/-- `fields.get("event") or fields.get(b"event", b"\x7b\x7d")`: an absent
field — and, through Python truthiness, an empty string — falls back to
the empty-object text. -/
def MsgFields.eventWire (f : MsgFields) : Wire :=
  match f.event with
  | some (Wire.bad "") => Wire.empty
  | some w => w
  | none => Wire.empty

/-- `fields.get("type") or fields.get(b"type", b"").decode()` followed by
the `if not event_type_str` check: an absent or empty `type` field is
reported as missing (`none`). -/
def MsgFields.typeStr (f : MsgFields) : Option String :=
  match f.type with
  | some s => if s = "" then none else some s
  | none => none

/-- The enum value the record's `type` field resolves to, if any. -/
def MsgFields.resolvedType (f : MsgFields) : Option EventType :=
  (f.typeStr).bind EventType.ofString?

/-- A registered callback.  `hid` identifies the callback object;
`raises` is what `await callback(event_data)` does: `none` a normal
return, `some e` an exception with text `e`. -/
structure Handler where
  hid : Nat
  raises : Option String
deriving DecidableEq, Repr

/-- The subscriber registry `self.subscribers`: event type to ordered
list of callbacks. -/
abbrev Subscribers := List (EventType × List Handler)

/-- `self.subscribers[event_type]` when present, else no callbacks run. -/
def subsFor (subs : Subscribers) (et : EventType) : List Handler :=
  match List.find? (fun p => decide (p.1 = et)) subs with
  | some p => p.2
  | none => []

/-- The per-callback dispatch loop: each callback is invoked in
registration order inside its own try/except, so an exception is logged
and the loop proceeds.  Returns the invoked callback ids and the
`callbacks_executed` counter (incremented only on normal return). -/
def runCallbacks : List Handler → List Nat × Nat
  | [] => ([], 0)
  | h :: t =>
    let rest := runCallbacks t
    (h.hid :: rest.1, (match h.raises with | none => 1 | some _ => 0) + rest.2)

/-- Result of one `_process_message` call. -/
structure ProcResult where
  success : Bool
  invoked : List Nat
  callbacks_executed : Nat
deriving DecidableEq, Repr

/-- `_process_message`: parse the `event` JSON, require a non-empty
`type` field that resolves to a known enum value, then dispatch to every
registered callback with per-callback exception isolation.  All failure
branches (`JSONDecodeError`, `ValueError`, the missing-type
`EventProcessingError` caught by the blanket handler) return `False`. -/
def processMessage (subs : Subscribers) (f : MsgFields) : ProcResult :=
  match (f.eventWire).parse with
  | none => ⟨false, [], 0⟩
  | some _ =>
    match f.typeStr with
    | none => ⟨false, [], 0⟩
    | some s =>
      match EventType.ofString? s with
      | none => ⟨false, [], 0⟩
      | some et =>
        let r := runCallbacks (subsFor subs et)
        ⟨true, r.1, r.2⟩

/-- A record's envelope is well formed when the `event` field parses and
the `type` field resolves to a known enum value — exactly the conditions
under which `_process_message` reaches its dispatch stage. -/
def MsgFields.envelopeOk (f : MsgFields) : Bool :=
  ((f.eventWire).parse).isSome && (f.resolvedType).isSome

/-- The failed-message record written by `_store_failed_message`: the
id and a decoded copy of the original fields, a failure timestamp and
`retry_count = max_attempts`.  (The byte-to-string decoding of the field
map is the identity here, fields being already decoded.) -/
structure FailedMessage where
  message_id : String
  fields : MsgFields
  failed_at : String
  retry_count : Nat
deriving DecidableEq, Repr

/-- The `for attempt in range(max_attempts)` loop of
`_process_message_with_retry`, with `i` the current value of `attempt`
and the fuel the number of remaining iterations (`max_attempts - i`).
Returns how many times `_process_message` ran, the backoff delays slept
(`min(base_delay * exponential_base ** attempt, max_delay)`, slept only
when `attempt < max_attempts - 1`), and whether a call succeeded. -/
def retryLoop (cfg : RetryConfig) (subs : Subscribers) (f : MsgFields) :
    Nat → Nat → Nat × List ℚ × Bool
  | _, 0 => (0, [], false)
  | i, n + 1 =>
    if (processMessage subs f).success then (1, [], true)
    else
      match n with
      | 0 => (1, [], false)
      | m + 1 =>
        let d := min (cfg.base_delay * cfg.exponential_base ^ i) cfg.max_delay
        let rest := retryLoop cfg subs f (i + 1) (m + 1)
        (rest.1 + 1, d :: rest.2.1, rest.2.2)

/-- Trace of one `_process_message_with_retry` call. -/
structure RetryTrace where
  success : Bool
  processCalls : Nat
  delays : List ℚ
  dlAttempted : Option FailedMessage
  dlStored : Option FailedMessage
deriving DecidableEq, Repr

/-- `_process_message_with_retry`: run the retry loop; when no attempt
succeeded, write the failed-message record (`_store_failed_message`
runs inside try/except — `dlOk = false` models a store that itself
raises, which is logged and swallowed) and return `False`. -/
def processMessageWithRetry (cfg : RetryConfig) (subs : Subscribers)
    (dlOk : Bool) (mid : String) (f : MsgFields) (now : String) : RetryTrace :=
  let r := retryLoop cfg subs f 0 cfg.max_attempts
  if r.2.2 then ⟨true, r.1, r.2.1, none, none⟩
  else
    let fm : FailedMessage := ⟨mid, f, now, cfg.max_attempts⟩
    ⟨false, r.1, r.2.1, some fm, if dlOk then some fm else none⟩

/-- Outcome of the consumer loop's handling of one claimed record. -/
structure ConsumeResult where
  acked : Bool
  trace : RetryTrace
deriving DecidableEq, Repr

/-- One iteration of the inner loop of `start_consuming`: process the
record with retry and `xack` it exactly when that returned success
(otherwise the failure is logged and the loop moves on). -/
def consumeRecord (cfg : RetryConfig) (subs : Subscribers) (dlOk : Bool)
    (now : String) (rec : String × MsgFields) : ConsumeResult :=
  let t := processMessageWithRetry cfg subs dlOk rec.1 rec.2 now
  ⟨t.success, t⟩

/-- The inner loop of `start_consuming` over one claimed batch: every
record of the batch is handled, in order, whatever the earlier
outcomes. -/
def consumeBatch (cfg : RetryConfig) (subs : Subscribers) (dlOk : Bool)
    (now : String) (recs : List (String × MsgFields)) : List ConsumeResult :=
  recs.map (consumeRecord cfg subs dlOk now)

/-- The field map `publish` hands to `xadd`: serialized envelope plus
the redundant indexed fields.  `attempt` holds the numeric value of the
`str(attempt + 1)` wire string. -/
structure StreamFields where
  event : Wire
  type : String
  priority : String
  source : String
  target : String
  attempt : Nat
deriving DecidableEq, Repr

/-- The record sent on the append attempt with 0-based loop counter
`a`: `source or ""`, `target or ""`, `attempt = str(a + 1)`. -/
def mkStreamFields (ev : Event) (a : Nat) : StreamFields :=
  ⟨Wire.obj ev, ev.type.toStr, ev.priority.toStr,
   ev.source.getD "", ev.target.getD "", a + 1⟩

/-- The failed-event record written by `_store_failed_event`: the full
envelope spread into the record, plus failure timestamp, the error text
and `retry_count = max_attempts`. -/
structure FailedEvent where
  event : Event
  failed_at : String
  error : String
  retry_count : Nat
deriving DecidableEq, Repr

/-- What a `publish` call returns to its caller.  `okNone` is the
implicit `None` return when the `while` guard fails before any
iteration (only reachable with `max_attempts = 0`); `errPublish e`
is the `EventPublishError` raised after exhaustion, wrapping the last
append error `e`; `errNotConnected` is the `RuntimeError` raised when
there is no Redis client. -/
inductive PubOutcome
  | okId (id : String)
  | okNone
  | errPublish (e : String)
  | errNotConnected
deriving DecidableEq, Repr

/-- Trace of one `publish` call.  `sent` lists the field maps passed to
`xadd` in order; `appended` those whose append succeeded; `dlAttempted`
and `dlStored` the failed-event record handed to, and durably written
by, `_store_failed_event`; `delays` the backoff sleeps. -/
structure PubTrace where
  outcome : PubOutcome
  idGenerated : Bool
  sent : List StreamFields
  appended : List StreamFields
  dlAttempted : Option FailedEvent
  dlStored : Option FailedEvent
  delays : List ℚ
deriving DecidableEq, Repr

/-- The `while attempt < max_attempts` loop of `publish`, with `a` the
current value of `attempt` and the fuel `max_attempts - a`.
`appendOk k = none` means the `xadd` of the attempt with counter `k`
returned a stream id; `some e` means it raised with text `e`.  On the
final failure the failed event is stored best-effort (`dlOk = false`
models `_store_failed_event` itself raising, which is logged) and
`EventPublishError` is raised; otherwise the loop sleeps
`min(base_delay * exponential_base ** (attempt - 1), max_delay)` with
the already-incremented counter and retries. -/
def publishLoop (cfg : RetryConfig) (ev : Event) (appendOk : Nat → Option String)
    (dlOk : Bool) (now : String) : Nat → Nat → PubTrace
  | _, 0 => ⟨.okNone, true, [], [], none, none, []⟩
  | a, n + 1 =>
    let f := mkStreamFields ev a
    match appendOk a with
    | none => ⟨.okId ev.id, true, [f], [f], none, none, []⟩
    | some e =>
      match n with
      | 0 =>
        let fe : FailedEvent := ⟨ev, now, e, cfg.max_attempts⟩
        ⟨.errPublish e, true, [f], [], some fe, if dlOk then some fe else none, []⟩
      | m + 1 =>
        let rest := publishLoop cfg ev appendOk dlOk now (a + 1) (m + 1)
        ⟨rest.outcome, true, f :: rest.sent, rest.appended,
         rest.dlAttempted, rest.dlStored,
         min (cfg.base_delay * cfg.exponential_base ^ a) cfg.max_delay :: rest.delays⟩

/-- An entry of the dead-letter stream `agentic_agile_failed_events`:
either a failed event (publish exhaustion) or a failed message
(processing exhaustion). -/
inductive FailedEntry
  | ev (e : FailedEvent)
  | msg (m : FailedMessage)
deriving DecidableEq, Repr

/-- The state of an `EventBus` object together with the broker streams
it owns: the Redis client presence, the main stream's records (oldest
first, paired with their broker message ids), the dead-letter stream
and the subscriber registry. -/
structure BusState where
  connected : Bool
  mainStream : List (String × StreamFields)
  failedStream : List FailedEntry
  subscribers : Subscribers
deriving DecidableEq, Repr

/-- The envelope `publish` builds: fresh id, the call's arguments, the
current UTC timestamp and version `"1.0"`. -/
def mkEvent (eventId : String) (now : String) (etype : EventType)
    (data : EventData) (prio : EventPriority)
    (src tgt : Option String) : Event :=
  ⟨eventId, etype, data, prio, src, tgt, now, "1.0"⟩

/-- `publish`: raise `RuntimeError` untouched when there is no client,
otherwise generate the id, build the envelope and run the append loop;
a successful append extends the main stream (under broker id `newMid`)
and a stored failed event extends the dead-letter stream. -/
def publish (cfg : RetryConfig) (st : BusState) (eventId : String)
    (now : String) (etype : EventType) (data : EventData)
    (prio : EventPriority) (src tgt : Option String)
    (appendOk : Nat → Option String) (dlOk : Bool) (newMid : String) :
    BusState × PubTrace :=
  if st.connected then
    let ev := mkEvent eventId now etype data prio src tgt
    let t := publishLoop cfg ev appendOk dlOk now 0 cfg.max_attempts
    ({ st with
       mainStream := st.mainStream ++ t.appended.map (fun f => (newMid, f)),
       failedStream := st.failedStream ++
         (match t.dlStored with | some fe => [FailedEntry.ev fe] | none => []) },
     t)
  else
    (st, ⟨.errNotConnected, false, [], [], none, none, []⟩)

/-- The delay the backoff policy schedules before retry number `k`
(1-based): `min(base_delay * exponential_base ** (k - 1), max_delay)`. -/
def retryDelay (cfg : RetryConfig) (k : Nat) : ℚ :=
  min (cfg.base_delay * cfg.exponential_base ^ (k - 1)) cfg.max_delay

/-- An entry of the list `get_event_history` builds: the broker message
id spread together with the parsed `event` JSON (`none` when that JSON
was the empty object, contributing no envelope fields). -/
structure HistEntry where
  message_id : String
  payload : Option Event
deriving DecidableEq, Repr

/-- `xrevrange(stream, count=limit)`: the most recent `limit` records,
most recent first. -/
def xrevrange (stream : List (String × StreamFields)) (limit : Nat) :
    List (String × StreamFields) :=
  (stream.reverse).take limit

/-- The type filter of `get_event_history`:
`if event_type and event_data.get("type") != event_type: continue`,
the comparison being string equality against the str-enum's value. -/
def histKeep (etype : Option EventType) (payload : Option Event) : Bool :=
  match etype with
  | none => true
  | some t =>
    match payload with
    | some e => e.type.toStr = t.toStr
    | none => false

/-- The record loop of `get_event_history`: `json.loads` each record's
`event` field and keep the records passing the type filter.  A record
whose field does not parse raises inside the surrounding try, aborting
the whole query (`none`). -/
def histScan (etype : Option EventType) :
    List (String × StreamFields) → Option (List HistEntry)
  | [] => some []
  | (mid, f) :: rest =>
    match (f.event).parse with
    | none => none
    | some payload =>
      match histScan etype rest with
      | none => none
      | some tail =>
        if histKeep etype payload then some (⟨mid, payload⟩ :: tail) else some tail

/-- `get_event_history`: empty when not connected; the `xrevrange`
outcome is `Except.error` when the broker call raises, and any exception
inside the loop also yields the empty list. -/
def get_event_history (connected : Bool)
    (xres : Except String (List (String × StreamFields)))
    (etype : Option EventType) : List HistEntry :=
  if connected then
    match xres with
    | .error _ => []
    | .ok msgs => (histScan etype msgs).getD []
  else []

/-- One consumer group of the main stream as `xinfo_groups` reports it. -/
structure GroupInfo where
  name : String
  consumers : List String
deriving DecidableEq, Repr

/-- The dict `get_stream_info` returns on success (`none` models the
empty dict returned when not connected or on any broker error). -/
structure StreamInfo where
  stream_name : String
  length : Nat
  groups : Nat
  consumers : Nat
deriving DecidableEq, Repr

/-- `get_stream_info`: empty dict when not connected or when either
`xinfo` call raises; otherwise the stream length, the number of groups
and the total number of consumer identities. -/
def get_stream_info (connected : Bool) (infoRes : Except String Nat)
    (groupsRes : Except String (List GroupInfo)) : Option StreamInfo :=
  if connected then
    match infoRes, groupsRes with
    | .ok len, .ok gs =>
      some ⟨"agentic_agile_events", len, gs.length,
            (gs.map (fun g => g.consumers.length)).sum⟩
    | _, _ => none
  else none

/-- `get_failed_events`: empty when not connected or when the
`xrevrange` over the dead-letter stream raises; otherwise the entries,
most recent first, each parsed back from its stored JSON. -/
def get_failed_events (connected : Bool)
    (xres : Except String (List (String × FailedEntry))) :
    List (String × FailedEntry) :=
  if connected then
    match xres with
    | .error _ => []
    | .ok entries => entries
  else []

/-- The broker-side topology `connect` sets up: which (stream, group)
pairs exist. -/
structure BrokerTopo where
  groups : List (String × String)
deriving DecidableEq, Repr

/-- `xgroup_create(stream, group, id="0", mkstream=True)`: raises the
`BUSYGROUP` response (returned flag `true`) and leaves the topology
unchanged when the group already exists, else creates it. -/
def xgroup_create (t : BrokerTopo) (stream group : String) :
    BrokerTopo × Bool :=
  if (stream, group) ∈ t.groups then (t, true)
  else (⟨t.groups ++ [(stream, group)]⟩, false)

/-- One `connect` body with a reachable broker (`ping` succeeded): both
`xgroup_create` calls run, each inside a try/except that swallows
exactly the `BUSYGROUP` response, so neither existing group is an
error.  Returns the new topology and the call's result. -/
def connectOnce (t : BrokerTopo) : BrokerTopo × Except String Unit :=
  let r1 := xgroup_create t "agentic_agile_events" "agentic_agile_consumers"
  let r2 := xgroup_create r1.1 "agentic_agile_failed_events"
              "agentic_agile_consumers_failed"
  (r2.1, .ok ())

/-- The consumer groups of one stream in a topology, as `xinfo_groups`
on that stream would list them. -/
def groupsOf (t : BrokerTopo) (stream : String) : List GroupInfo :=
  ((t.groups).filter (fun p => decide (p.1 = stream))).map (fun p => ⟨p.2, []⟩)

/-- The list of the `m` backoff delays slept by a loop whose failing
iterations carry 0-based counters `i, i+1, ...`. -/
def backoffDelays (cfg : RetryConfig) (i m : Nat) : List ℚ :=
  (List.range m).map
    (fun j => min (cfg.base_delay * cfg.exponential_base ^ (i + j)) cfg.max_delay)

/-- The field maps sent by `m` consecutive append attempts whose 0-based
counters start at `i`. -/
def attemptFields (ev : Event) (i m : Nat) : List StreamFields :=
  (List.range m).map (fun j => mkStreamFields ev (i + j))

/-- A sample envelope, as `publish` would build it for a `GIT_PUSH`
event. -/
def sampleEvent : Event :=
  ⟨"e-1", .GIT_PUSH, [("status", "active")], .NORMAL, some "hub", none,
   "2026-01-01T00:00:00", "1.0"⟩

/-- A well-formed claimed record: its `event` field parses and its
`type` field resolves to `GIT_PUSH`. -/
def wfFields : MsgFields :=
  ⟨some (Wire.obj sampleEvent), some "git.push", some "normal",
   some "hub", some "", some 1⟩

/-- A malformed claimed record: its `event` field is undecodable. -/
def badFields : MsgFields :=
  ⟨some (Wire.bad "not json"), some "git.push", some "normal",
   some "", some "", some 1⟩

/-- A callback that raises on every invocation. -/
def raiser : Handler := ⟨7, some "boom"⟩

/-- A correctly-functioning callback. -/
def worker : Handler := ⟨8, none⟩

/-- A registry with a throwing handler registered alongside a working
one for `GIT_PUSH`. -/
def sampleSubs : Subscribers := [(EventType.GIT_PUSH, [raiser, worker])]

/-- A retry configuration with `max_attempts = n` and the default
delays. -/
def cfgN (n : Nat) : RetryConfig := ⟨n, 1, 60, 2⟩

/-- The dispatch loop invokes every registered callback, in order. -/
theorem runCallbacks_fst (hs : List Handler) :
    (runCallbacks hs).1 = hs.map Handler.hid := by
  induction hs with
  | nil => rfl
  | cons h t ih => simp [runCallbacks, ih]

/-- `_process_message` succeeds exactly on a well-formed envelope,
whatever the registered callbacks do. -/
theorem processMessage_success_eq (subs : Subscribers) (f : MsgFields) :
    (processMessage subs f).success = f.envelopeOk := by
  unfold processMessage MsgFields.envelopeOk MsgFields.resolvedType
  cases h1 : (f.eventWire).parse with
  | none => simp [h1]
  | some p =>
    cases h2 : f.typeStr with
    | none => simp [h2]
    | some s =>
      cases h3 : EventType.ofString? s with
      | none => simp [h2, h3]
      | some et => simp [h2, h3]

/-- Invoking only raising callbacks leaves `callbacks_executed` at 0. -/
theorem runCallbacks_snd_zero (hs : List Handler)
    (h : ∀ x ∈ hs, (Handler.raises x).isSome = true) :
    (runCallbacks hs).2 = 0 := by
  induction hs with
  | nil => rfl
  | cons x t ih =>
    have hx := h x (by simp)
    have ht : ∀ y ∈ t, (Handler.raises y).isSome = true :=
      fun y hy => h y (by simp [hy])
    cases hr : x.raises with
    | none => rw [hr] at hx; simp at hx
    | some e => simp [runCallbacks, hr, ih ht]

/-- On a well-formed envelope resolving to `et`, `_process_message`
succeeds, invokes every callback registered for `et`, and counts the
normally-returning ones. -/
theorem processMessage_dispatch (subs : Subscribers) (f : MsgFields)
    (et : EventType) (hp : ((f.eventWire).parse).isSome = true)
    (ht : f.resolvedType = some et) :
    (processMessage subs f).success = true ∧
    (processMessage subs f).invoked = (subsFor subs et).map Handler.hid ∧
    (processMessage subs f).callbacks_executed = (runCallbacks (subsFor subs et)).2 := by
  unfold MsgFields.resolvedType at ht
  unfold processMessage
  cases h1 : (f.eventWire).parse with
  | none => rw [h1] at hp; simp at hp
  | some p =>
    cases h2 : f.typeStr with
    | none => rw [h2] at ht; simp at ht
    | some s =>
      rw [h2] at ht
      simp only [Option.some_bind] at ht
      simp [ht, runCallbacks_fst]

/-- When even one `_process_message` call succeeds, the retry loop stops
after that first call, with no backoff sleeps. -/
theorem retryLoop_of_success (cfg : RetryConfig) (subs : Subscribers)
    (f : MsgFields) (h : (processMessage subs f).success = true)
    (n i : Nat) : retryLoop cfg subs f i (n + 1) = (1, [], true) := by
  cases n <;> simp [retryLoop, h]

/-- Peeling one delay off the front of a backoff delay list. -/
theorem backoffDelays_succ (cfg : RetryConfig) (i m : Nat) :
    backoffDelays cfg i (m + 1) =
      min (cfg.base_delay * cfg.exponential_base ^ i) cfg.max_delay ::
        backoffDelays cfg (i + 1) m := by
  unfold backoffDelays
  rw [List.range_succ_eq_map, List.map_cons, List.map_map]
  refine congrArg₂ _ (by simp) (congrArg₂ _ ?_ rfl)
  funext j
  have hij : i + (j + 1) = i + 1 + j := by omega
  simp [Function.comp, hij]

/-- Each member of a backoff delay list is the delay the policy
schedules before the corresponding retry. -/
theorem backoffDelays_get? (cfg : RetryConfig) (i m k : Nat) (d : ℚ)
    (h : (backoffDelays cfg i m).get? k = some d) :
    d = min (cfg.base_delay * cfg.exponential_base ^ (i + k)) cfg.max_delay := by
  unfold backoffDelays at h
  rw [List.get?_eq_getElem?, List.getElem?_map] at h
  by_cases hk : k < m
  · rw [List.getElem?_range hk] at h
    simp only [Option.map_some', Option.some_inj] at h
    exact h.symm
  · rw [List.getElem?_eq_none (by simpa using hk)] at h
    simp at h

/-- When `_process_message` fails, the retry loop runs `_process_message`
on each of its `max_attempts` iterations and sleeps the exponential
backoff between consecutive ones. -/
theorem retryLoop_of_fail (cfg : RetryConfig) (subs : Subscribers)
    (f : MsgFields) (h : (processMessage subs f).success = false) :
    ∀ n i, retryLoop cfg subs f i n = (n, backoffDelays cfg i (n - 1), false) := by
  intro n
  induction n with
  | zero => intro i; simp [retryLoop, backoffDelays]
  | succ m ih =>
    intro i
    cases m with
    | zero => simp [retryLoop, h, backoffDelays]
    | succ k =>
      have hrest := ih (i + 1)
      simp only [retryLoop, h, Bool.false_eq_true, if_false, hrest,
        Nat.succ_sub_one, backoffDelays_succ]

/-- Peeling the first attempt off an attempt-field list. -/
theorem attemptFields_succ (ev : Event) (i m : Nat) :
    attemptFields ev i (m + 1) =
      mkStreamFields ev i :: attemptFields ev (i + 1) m := by
  unfold attemptFields
  rw [List.range_succ_eq_map, List.map_cons, List.map_map]
  refine congrArg₂ _ (by simp) (congrArg₂ _ ?_ rfl)
  funext j
  have hij : i + (j + 1) = i + 1 + j := by omega
  simp [Function.comp, hij]


/-- A single-attempt list. -/
theorem attemptFields_one (ev : Event) (i : Nat) :
    attemptFields ev i 1 = [mkStreamFields ev i] := by
  simp [attemptFields, List.range_succ]

/-- Unfolding of the final iteration of the publish loop. -/
theorem publishLoop_one (cfg : RetryConfig) (ev : Event)
    (appendOk : Nat → Option String) (dlOk : Bool) (now : String) (a : Nat) :
    publishLoop cfg ev appendOk dlOk now a 1 =
      match appendOk a with
      | none =>
        ⟨.okId ev.id, true, [mkStreamFields ev a], [mkStreamFields ev a],
         none, none, []⟩
      | some e =>
        ⟨.errPublish e, true, [mkStreamFields ev a], [],
         some ⟨ev, now, e, cfg.max_attempts⟩,
         if dlOk then some ⟨ev, now, e, cfg.max_attempts⟩ else none, []⟩ := by
  rw [publishLoop.eq_def]

/-- Unfolding of a non-final iteration of the publish loop. -/
theorem publishLoop_cons (cfg : RetryConfig) (ev : Event)
    (appendOk : Nat → Option String) (dlOk : Bool) (now : String) (a m : Nat) :
    publishLoop cfg ev appendOk dlOk now a (m + 2) =
      match appendOk a with
      | none =>
        ⟨.okId ev.id, true, [mkStreamFields ev a], [mkStreamFields ev a],
         none, none, []⟩
      | some _ =>
        let rest := publishLoop cfg ev appendOk dlOk now (a + 1) (m + 1)
        ⟨rest.outcome, true, mkStreamFields ev a :: rest.sent, rest.appended,
         rest.dlAttempted, rest.dlStored,
         min (cfg.base_delay * cfg.exponential_base ^ a) cfg.max_delay ::
           rest.delays⟩ := by
  rw [publishLoop.eq_def]

/-- When every append attempt raises, the publish loop sends the record
on each of its `max_attempts` iterations, appends nothing, sleeps the
backoff between consecutive iterations, stores the failed event built
from the error of the final attempt (best-effort), and raises
`EventPublishError` wrapping that same error. -/
theorem publishLoop_all_fail (cfg : RetryConfig) (ev : Event)
    (appendOk : Nat → Option String) (dlOk : Bool) (now : String)
    (es : Nat → String) (hA : ∀ k, appendOk k = some (es k)) :
    ∀ n i, publishLoop cfg ev appendOk dlOk now i (n + 1) =
      ⟨.errPublish (es (i + n)), true, attemptFields ev i (n + 1), [],
       some ⟨ev, now, es (i + n), cfg.max_attempts⟩,
       if dlOk then some ⟨ev, now, es (i + n), cfg.max_attempts⟩ else none,
       backoffDelays cfg i n⟩ := by
  intro n
  induction n with
  | zero =>
    intro i
    rw [publishLoop_one, hA i]
    simp [attemptFields_one, backoffDelays]
  | succ m ih =>
    intro i
    have hrest := ih (i + 1)
    have hidx : i + 1 + m = i + (m + 1) := by omega
    rw [hidx] at hrest
    rw [publishLoop_cons, hA i]
    simp only [hrest, attemptFields_succ, backoffDelays_succ]

/-- The field maps one publish call hands to `xadd` always form an
initial run of attempt-tagged serializations of its envelope. -/
theorem publishLoop_sent_shape (cfg : RetryConfig) (ev : Event)
    (appendOk : Nat → Option String) (dlOk : Bool) (now : String) :
    ∀ n i, ∃ m, m ≤ n ∧
      (publishLoop cfg ev appendOk dlOk now i n).sent = attemptFields ev i m := by
  intro n
  induction n with
  | zero => intro i; exact ⟨0, le_rfl, by simp [publishLoop, attemptFields]⟩
  | succ m ih =>
    intro i
    cases m with
    | zero =>
      rw [publishLoop_one]
      cases hA : appendOk i with
      | none => exact ⟨1, le_rfl, by simp [attemptFields_one]⟩
      | some e => exact ⟨1, le_rfl, by simp [attemptFields_one]⟩
    | succ m' =>
      rw [publishLoop_cons]
      cases hA : appendOk i with
      | none => exact ⟨1, by omega, by simp [attemptFields_one]⟩
      | some e =>
        obtain ⟨mm, hmm, hsent⟩ := ih (i + 1)
        refine ⟨mm + 1, by omega, ?_⟩
        simp only [attemptFields_succ]
        simp [hsent]

/-- Each member of an attempt-field list carries the attempt counter of
its own position. -/
theorem attemptFields_get? (ev : Event) (i m k : Nat) (f' : StreamFields)
    (h : (attemptFields ev i m).get? k = some f') :
    f' = mkStreamFields ev (i + k) := by
  unfold attemptFields at h
  rw [List.get?_eq_getElem?, List.getElem?_map] at h
  by_cases hk : k < m
  · rw [List.getElem?_range hk] at h
    simp only [Option.map_some', Option.some_inj] at h
    exact h.symm
  · rw [List.getElem?_eq_none (by simpa using hk)] at h
    simp at h

/-- A publish loop that returns an id returns the envelope's own id,
appended exactly one record — the envelope's serialization — and stored
nothing in the dead-letter stream. -/
theorem publishLoop_okId (cfg : RetryConfig) (ev : Event)
    (appendOk : Nat → Option String) (dlOk : Bool) (now : String) :
    ∀ n i eid,
      (publishLoop cfg ev appendOk dlOk now i n).outcome = .okId eid →
      eid = ev.id ∧
      (∃ j, (publishLoop cfg ev appendOk dlOk now i n).appended =
        [mkStreamFields ev j]) ∧
      (publishLoop cfg ev appendOk dlOk now i n).dlStored = none := by
  intro n
  induction n with
  | zero => intro i eid h; simp [publishLoop] at h
  | succ m ih =>
    intro i eid h
    cases m with
    | zero =>
      rw [publishLoop_one] at h ⊢
      cases hA : appendOk i with
      | none =>
        rw [hA] at h
        simp at h
        exact ⟨h.symm, ⟨i, by simp⟩, by simp⟩
      | some e =>
        rw [hA] at h
        simp at h
    | succ m' =>
      rw [publishLoop_cons] at h ⊢
      cases hA : appendOk i with
      | none =>
        rw [hA] at h
        simp at h
        exact ⟨h.symm, ⟨i, by simp⟩, by simp⟩
      | some e =>
        rw [hA] at h
        simp at h ⊢
        exact ih (i + 1) eid h

/-- With at least one configured attempt, processing a well-formed
record succeeds at the first attempt: one `_process_message` call, no
sleeps, nothing dead-lettered. -/
theorem processMessageWithRetry_ok (cfg : RetryConfig) (subs : Subscribers)
    (dlOk : Bool) (mid : String) (f : MsgFields) (now : String)
    (hN : 1 ≤ cfg.max_attempts) (h : f.envelopeOk = true) :
    processMessageWithRetry cfg subs dlOk mid f now = ⟨true, 1, [], none, none⟩ := by
  obtain ⟨n, hn⟩ : ∃ n, cfg.max_attempts = n + 1 := ⟨cfg.max_attempts - 1, by omega⟩
  have hs : (processMessage subs f).success = true := by
    rw [processMessage_success_eq, h]
  unfold processMessageWithRetry
  rw [hn, retryLoop_of_success cfg subs f hs n 0]
  simp

/-- Processing a malformed record fails on every attempt: the record is
retried `max_attempts` times with backoff sleeps in between, and the
failed-message record carrying the original fields and
`retry_count = max_attempts` is handed to the dead-letter store. -/
theorem processMessageWithRetry_fail (cfg : RetryConfig) (subs : Subscribers)
    (dlOk : Bool) (mid : String) (f : MsgFields) (now : String)
    (h : f.envelopeOk = false) :
    processMessageWithRetry cfg subs dlOk mid f now =
      ⟨false, cfg.max_attempts, backoffDelays cfg 0 (cfg.max_attempts - 1),
       some ⟨mid, f, now, cfg.max_attempts⟩,
       if dlOk then some ⟨mid, f, now, cfg.max_attempts⟩ else none⟩ := by
  have hs : (processMessage subs f).success = false := by
    rw [processMessage_success_eq, h]
  unfold processMessageWithRetry
  rw [retryLoop_of_fail cfg subs f hs cfg.max_attempts 0]
  simp

/-- C1: for every claimed stream record, the consumer loop acknowledges
the record iff processing returned success; processing succeeds exactly
when the envelope parses and its type resolves to a known enum value;
every exception a registered handler raises during dispatch is caught,
does not prevent the remaining registered handlers from being invoked,
and the record is still acknowledged. -/
theorem claimed_record_ack_iff_processing_success (cfg : RetryConfig)
    (subs : Subscribers) (dlOk : Bool) (now mid : String) (f : MsgFields)
    (hN : 1 ≤ cfg.max_attempts) :
    ((consumeRecord cfg subs dlOk now (mid, f)).acked
        = (processMessageWithRetry cfg subs dlOk mid f now).success)
    ∧ ((consumeRecord cfg subs dlOk now (mid, f)).acked = f.envelopeOk)
    ∧ (∀ et, ((f.eventWire).parse).isSome = true → f.resolvedType = some et →
        (processMessage subs f).invoked = (subsFor subs et).map Handler.hid
        ∧ (consumeRecord cfg subs dlOk now (mid, f)).acked = true) := by
  have hacked : (consumeRecord cfg subs dlOk now (mid, f)).acked
      = (processMessageWithRetry cfg subs dlOk mid f now).success := rfl
  have henv : (processMessageWithRetry cfg subs dlOk mid f now).success
      = f.envelopeOk := by
    cases h : f.envelopeOk with
    | false => rw [processMessageWithRetry_fail cfg subs dlOk mid f now h]
    | true => rw [processMessageWithRetry_ok cfg subs dlOk mid f now hN h]
  refine ⟨hacked, hacked.trans henv, ?_⟩
  intro et hp ht
  refine ⟨(processMessage_dispatch subs f et hp ht).2.1, ?_⟩
  rw [hacked, henv]
  simp [MsgFields.envelopeOk, hp, ht]

/-- C1 witness: with a throwing handler registered alongside a working
one, a well-formed `GIT_PUSH` record is acknowledged and both handlers
were invoked. -/
theorem claimed_record_ack_iff_processing_success_witness :
    1 ≤ (cfgN 3).max_attempts
    ∧ (consumeRecord (cfgN 3) sampleSubs true "t0" ("m-1", wfFields)).acked
        = MsgFields.envelopeOk wfFields :=
  ⟨by decide,
   (claimed_record_ack_iff_processing_success (cfgN 3) sampleSubs true "t0"
     "m-1" wfFields (by decide)).2.1⟩

/-- C4 counterexample: a well-formed `GIT_PUSH` record dispatched to a
handler that raises on every invocation, under `max_attempts = 3`,
produces no failed-message record at all — the dead-letter store is not
even attempted — and the record is acknowledged, contradicting the
claimed single failed-message record with `retry_count = 3`. -/
theorem always_raising_handler_no_failed_record_cex :
    (processMessageWithRetry (cfgN 3) [(EventType.GIT_PUSH, [raiser])]
        true "m-1" wfFields "t0").dlAttempted = none
    ∧ (processMessageWithRetry (cfgN 3) [(EventType.GIT_PUSH, [raiser])]
        true "m-1" wfFields "t0").dlStored = none
    ∧ (consumeRecord (cfgN 3) [(EventType.GIT_PUSH, [raiser])] true "t0"
        ("m-1", wfFields)).acked = true := by
  decide

/-- C4 amended: for every delivered record whose envelope is well
formed, dispatched to registered handlers all of which raise on every
invocation, with `max_attempts = N ≥ 1`, consuming the record produces
no failed-message record in the dead-letter store (handler errors are
isolated: the record is processed successfully on the first attempt,
every handler is still invoked, none completes normally, and the record
is acknowledged); only parse/type-resolution failures produce the
failed-message record carrying `retry_count = N`. -/
theorem always_raising_handler_record_acked (cfg : RetryConfig)
    (subs : Subscribers) (dlOk : Bool) (now mid : String) (f : MsgFields)
    (et : EventType) (hN : 1 ≤ cfg.max_attempts)
    (hp : ((f.eventWire).parse).isSome = true)
    (ht : f.resolvedType = some et)
    (hall : ∀ x ∈ subsFor subs et, (Handler.raises x).isSome = true) :
    processMessageWithRetry cfg subs dlOk mid f now = ⟨true, 1, [], none, none⟩
    ∧ (consumeRecord cfg subs dlOk now (mid, f)).acked = true
    ∧ (processMessage subs f).invoked = (subsFor subs et).map Handler.hid
    ∧ (processMessage subs f).callbacks_executed = 0 := by
  have henv : f.envelopeOk = true := by simp [MsgFields.envelopeOk, hp, ht]
  have hd := processMessage_dispatch subs f et hp ht
  have htrace := processMessageWithRetry_ok cfg subs dlOk mid f now hN henv
  refine ⟨htrace, ?_, hd.2.1, ?_⟩
  · show (processMessageWithRetry cfg subs dlOk mid f now).success = true
    rw [htrace]
  · rw [hd.2.2]
    exact runCallbacks_snd_zero (subsFor subs et) hall

/-- C4 amended witness: the always-raising handler for `GIT_PUSH` and
`max_attempts = 3` on a concrete well-formed record. -/
theorem always_raising_handler_record_acked_witness :
    1 ≤ (cfgN 3).max_attempts
    ∧ processMessageWithRetry (cfgN 3) [(EventType.GIT_PUSH, [raiser])]
        true "m-1" wfFields "t0" = ⟨true, 1, [], none, none⟩ :=
  ⟨by decide,
   (always_raising_handler_record_acked (cfgN 3)
     [(EventType.GIT_PUSH, [raiser])] true "t0" "m-1" wfFields
     EventType.GIT_PUSH (by decide) (by decide) (by decide) (by decide)).1⟩

/-- C3: a claimed record with a malformed envelope (undecodable
encoding, or a `type` that does not resolve) is treated as a processing
failure and retried `max_attempts` times; after the final failure the
raw record is copied to the dead-letter store as a failed message with
its original fields and `retry_count = max_attempts`; the record is not
acknowledged; and the loop continues with the next record of the
batch. -/
theorem malformed_record_dead_lettered_not_acked (cfg : RetryConfig)
    (subs : Subscribers) (now mid : String) (f : MsgFields)
    (rest : List (String × MsgFields)) (hmal : f.envelopeOk = false) :
    (processMessageWithRetry cfg subs true mid f now).processCalls
        = cfg.max_attempts
    ∧ (processMessageWithRetry cfg subs true mid f now).dlStored
        = some ⟨mid, f, now, cfg.max_attempts⟩
    ∧ (consumeRecord cfg subs true now (mid, f)).acked = false
    ∧ consumeBatch cfg subs true now ((mid, f) :: rest)
        = consumeRecord cfg subs true now (mid, f)
            :: consumeBatch cfg subs true now rest := by
  have htrace := processMessageWithRetry_fail cfg subs true mid f now hmal
  refine ⟨?_, ?_, ?_, rfl⟩
  · rw [htrace]
  · rw [htrace]; rfl
  · show (processMessageWithRetry cfg subs true mid f now).success = false
    rw [htrace]

/-- C3 witness: an undecodable record under `max_attempts = 3`, followed
by one further record in the batch. -/
theorem malformed_record_dead_lettered_not_acked_witness :
    MsgFields.envelopeOk badFields = false
    ∧ (processMessageWithRetry (cfgN 3) sampleSubs true "m-1" badFields
        "t0").dlStored = some ⟨"m-1", badFields, "t0", 3⟩ :=
  ⟨by decide,
   (malformed_record_dead_lettered_not_acked (cfgN 3) sampleSubs "t0" "m-1"
     badFields [("m-2", wfFields)] (by decide)).2.1⟩

/-- C2: when all `max_attempts` append attempts of one publish call
fail, the caller receives `EventPublishError` wrapping the last error,
the full envelope plus that last error text is handed to the
dead-letter store as a failed event, nothing is appended to the main
stream, and a failing dead-letter write is swallowed — the caller still
receives `EventPublishError`. -/
theorem publish_exhaustion_raises_after_dead_letter (cfg : RetryConfig)
    (st : BusState) (eventId now : String) (etype : EventType)
    (data : EventData) (prio : EventPriority) (src tgt : Option String)
    (es : Nat → String) (appendOk : Nat → Option String) (dlOk : Bool)
    (newMid : String) (hconn : st.connected = true)
    (hN : 1 ≤ cfg.max_attempts) (hA : ∀ k, appendOk k = some (es k)) :
    ((publish cfg st eventId now etype data prio src tgt appendOk dlOk
        newMid).2).outcome = .errPublish (es (cfg.max_attempts - 1))
    ∧ ((publish cfg st eventId now etype data prio src tgt appendOk dlOk
        newMid).2).dlAttempted
        = some ⟨mkEvent eventId now etype data prio src tgt, now,
                es (cfg.max_attempts - 1), cfg.max_attempts⟩
    ∧ (dlOk = true →
        ((publish cfg st eventId now etype data prio src tgt appendOk dlOk
            newMid).1).failedStream
          = st.failedStream
              ++ [FailedEntry.ev ⟨mkEvent eventId now etype data prio src tgt,
                    now, es (cfg.max_attempts - 1), cfg.max_attempts⟩])
    ∧ (dlOk = false →
        ((publish cfg st eventId now etype data prio src tgt appendOk dlOk
            newMid).2).dlStored = none
        ∧ ((publish cfg st eventId now etype data prio src tgt appendOk dlOk
            newMid).1).failedStream = st.failedStream)
    ∧ ((publish cfg st eventId now etype data prio src tgt appendOk dlOk
        newMid).1).mainStream = st.mainStream := by
  obtain ⟨n, hn⟩ : ∃ n, cfg.max_attempts = n + 1 := ⟨cfg.max_attempts - 1, by omega⟩
  have hloop := publishLoop_all_fail cfg
    (mkEvent eventId now etype data prio src tgt) appendOk dlOk now es hA n 0
  have hidx : (0 : Nat) + n = cfg.max_attempts - 1 := by omega
  rw [hidx] at hloop
  simp only [publish, hconn, if_true, hn, hloop]
  cases dlOk with
  | false => simp
  | true => simp

/-- C2 witness: a broker that always raises `"down"`, `max_attempts = 3`,
with a dead-letter store that itself fails: the caller still receives
`EventPublishError`. -/
theorem publish_exhaustion_raises_after_dead_letter_witness :
    (BusState.connected ⟨true, [], [], []⟩ = true)
    ∧ ((publish (cfgN 3) ⟨true, [], [], []⟩ "e-1" "t0" .GIT_PUSH
        [("status", "active")] .NORMAL none none (fun _ => some "down")
        false "m-9").2).outcome = .errPublish "down" :=
  ⟨rfl,
   (publish_exhaustion_raises_after_dead_letter (cfgN 3) ⟨true, [], [], []⟩
     "e-1" "t0" .GIT_PUSH [("status", "active")] .NORMAL none none
     (fun _ => "down") (fun _ => some "down") false "m-9" rfl (by decide)
     (fun _ => rfl)).1⟩

/-- The zero-based backoff delay list is exactly the 1-based
retry-delay formula applied to retries `1, ..., m`. -/
theorem backoffDelays_zero_eq_retryDelay (cfg : RetryConfig) (m : Nat) :
    backoffDelays cfg 0 m
      = (List.range m).map (fun j => retryDelay cfg (j + 1)) := by
  simp [backoffDelays, retryDelay]

/-- Every scheduled delay is capped by `max_delay`. -/
theorem retryDelay_le_max (cfg : RetryConfig) (k : Nat) :
    retryDelay cfg k ≤ cfg.max_delay :=
  min_le_right _ _

/-- With nonnegative base delay and exponential base at least one, the
scheduled delays are non-decreasing in the retry number. -/
theorem retryDelay_mono (cfg : RetryConfig) (hb : 0 ≤ cfg.base_delay)
    (he : 1 ≤ cfg.exponential_base) (k : Nat) :
    retryDelay cfg k ≤ retryDelay cfg (k + 1) := by
  unfold retryDelay
  refine min_le_min (mul_le_mul_of_nonneg_left ?_ hb) le_rfl
  exact pow_le_pow_right he (by omega)

/-- The retry-delay sequence is chainwise non-decreasing. -/
theorem retryDelay_chain (cfg : RetryConfig) (hb : 0 ≤ cfg.base_delay)
    (he : 1 ≤ cfg.exponential_base) (m : Nat) :
    List.Chain' (fun a b => a ≤ b)
      ((List.range m).map (fun j => retryDelay cfg (j + 1))) := by
  rw [List.chain'_iff_get]
  intro i hi
  simp only [List.get_map, List.get_range]
  exact retryDelay_mono cfg hb he (i + 1)

/-- C6: for every failing operation retried under the backoff policy —
a record whose processing fails every attempt, or a publish whose
appends all fail — the delay before retry number `k` equals
`min(base_delay * exponential_base ^ (k - 1), max_delay)`; the
successive delays are non-decreasing and each is at most `max_delay`. -/
theorem backoff_delay_formula_and_growth (cfg : RetryConfig)
    (hb : 0 ≤ cfg.base_delay) (he : 1 ≤ cfg.exponential_base) :
    (∀ (subs : Subscribers) (dlOk : Bool) (mid now : String) (f : MsgFields),
        f.envelopeOk = false →
        (processMessageWithRetry cfg subs dlOk mid f now).delays
          = (List.range (cfg.max_attempts - 1)).map
              (fun j => retryDelay cfg (j + 1)))
    ∧ (∀ (st : BusState) (eventId now : String) (etype : EventType)
          (data : EventData) (prio : EventPriority) (src tgt : Option String)
          (es : Nat → String) (appendOk : Nat → Option String) (dlOk : Bool)
          (newMid : String),
        st.connected = true → 1 ≤ cfg.max_attempts →
        (∀ k, appendOk k = some (es k)) →
        ((publish cfg st eventId now etype data prio src tgt appendOk dlOk
            newMid).2).delays
          = (List.range (cfg.max_attempts - 1)).map
              (fun j => retryDelay cfg (j + 1)))
    ∧ (∀ k, retryDelay cfg k ≤ retryDelay cfg (k + 1))
    ∧ (∀ k, retryDelay cfg k ≤ cfg.max_delay)
    ∧ (∀ m, List.Chain' (fun a b => a ≤ b)
        ((List.range m).map (fun j => retryDelay cfg (j + 1)))) := by
  refine ⟨?_, ?_, retryDelay_mono cfg hb he, retryDelay_le_max cfg,
    retryDelay_chain cfg hb he⟩
  · intro subs dlOk mid now f hmal
    rw [processMessageWithRetry_fail cfg subs dlOk mid f now hmal]
    exact backoffDelays_zero_eq_retryDelay cfg (cfg.max_attempts - 1)
  · intro st eventId now etype data prio src tgt es appendOk dlOk newMid
      hconn hN hA
    obtain ⟨n, hn⟩ : ∃ n, cfg.max_attempts = n + 1 :=
      ⟨cfg.max_attempts - 1, by omega⟩
    have hloop := publishLoop_all_fail cfg
      (mkEvent eventId now etype data prio src tgt) appendOk dlOk now es hA n 0
    simp only [publish, hconn, if_true, hn, hloop]
    have hn1 : n + 1 - 1 = n := by omega
    rw [hn1]
    exact backoffDelays_zero_eq_retryDelay cfg n

/-- C6 witness: the default configuration on a record that fails every
attempt: the two delays slept are the formula's values. -/
theorem backoff_delay_formula_and_growth_witness :
    (0 ≤ (cfgN 3).base_delay ∧ 1 ≤ (cfgN 3).exponential_base)
    ∧ (processMessageWithRetry (cfgN 3) sampleSubs true "m-1" badFields
        "t0").delays
        = (List.range 2).map (fun j => retryDelay (cfgN 3) (j + 1)) :=
  ⟨⟨by decide, by decide⟩,
   (backoff_delay_formula_and_growth (cfgN 3) (by decide) (by decide)).1
     sampleSubs true "m-1" "t0" badFields (by decide)⟩

/-- C8: within one publish call, the record sent on the k-th append
attempt (1-based) carries `attempt = k`, so the attempt values of the
successive appends of the same logical event are strictly increasing. -/
theorem publish_attempt_counter_increasing (cfg : RetryConfig)
    (st : BusState) (eventId now : String) (etype : EventType)
    (data : EventData) (prio : EventPriority) (src tgt : Option String)
    (appendOk : Nat → Option String) (dlOk : Bool) (newMid : String)
    (hconn : st.connected = true) :
    (∀ k f',
        (((publish cfg st eventId now etype data prio src tgt appendOk dlOk
            newMid).2).sent).get? k = some f' →
        f'.attempt = k + 1)
    ∧ (∀ k1 k2 f1 f2,
        (((publish cfg st eventId now etype data prio src tgt appendOk dlOk
            newMid).2).sent).get? k1 = some f1 →
        (((publish cfg st eventId now etype data prio src tgt appendOk dlOk
            newMid).2).sent).get? k2 = some f2 →
        k1 < k2 → f1.attempt < f2.attempt) := by
  have hmain : ∀ k f',
      (((publish cfg st eventId now etype data prio src tgt appendOk dlOk
          newMid).2).sent).get? k = some f' → f'.attempt = k + 1 := by
    intro k f' h
    simp only [publish, hconn, if_true] at h
    obtain ⟨m, hm, hsent⟩ := publishLoop_sent_shape cfg
      (mkEvent eventId now etype data prio src tgt) appendOk dlOk now
      cfg.max_attempts 0
    rw [hsent] at h
    have := attemptFields_get? (mkEvent eventId now etype data prio src tgt)
      0 m k f' h
    rw [this]
    simp [mkStreamFields]
  refine ⟨hmain, ?_⟩
  intro k1 k2 f1 f2 h1 h2 hk
  rw [hmain k1 f1 h1, hmain k2 f2 h2]
  omega

/-- C8 witness: with the first two appends failing and the third
succeeding, the records sent on attempts 1 and 3 carry `attempt = 1`
and `attempt = 3`. -/
theorem publish_attempt_counter_increasing_witness :
    (BusState.connected ⟨true, [], [], []⟩ = true)
    ∧ (mkStreamFields (mkEvent "e-1" "t0" .GIT_PUSH [] .NORMAL none none)
        2).attempt = 2 + 1 :=
  ⟨rfl,
   (publish_attempt_counter_increasing (cfgN 3) ⟨true, [], [], []⟩ "e-1"
     "t0" .GIT_PUSH [] .NORMAL none none
     (fun k => if k < 2 then some "down" else none) true "m-9" rfl).1 2
     (mkStreamFields (mkEvent "e-1" "t0" .GIT_PUSH [] .NORMAL none none) 2)
     (by decide)⟩

/-- `xrevrange` over a stream with one newly appended record lists that
record first. -/
theorem xrevrange_append_one (s : List (String × StreamFields))
    (x : String × StreamFields) (limit : Nat) (h : 1 ≤ limit) :
    xrevrange (s ++ [x]) limit = x :: xrevrange s (limit - 1) := by
  unfold xrevrange
  obtain ⟨l, rfl⟩ : ∃ l, limit = l + 1 := ⟨limit - 1, by omega⟩
  rw [List.reverse_append]
  simp [List.take_succ_cons]

/-- Unfolding of the record loop of `get_event_history`. -/
theorem histScan_cons (etype : Option EventType) (mid : String)
    (f : StreamFields) (rest : List (String × StreamFields)) :
    histScan etype ((mid, f) :: rest) =
      match (f.event).parse with
      | none => none
      | some payload =>
        match histScan etype rest with
        | none => none
        | some tail =>
          if histKeep etype payload then some (⟨mid, payload⟩ :: tail)
          else some tail := by
  rw [histScan.eq_def]

/-- The history scan completes without raising whenever every scanned
record's `event` field parses. -/
theorem histScan_isSome (etype : Option EventType)
    (l : List (String × StreamFields))
    (h : ∀ p ∈ l, ((p.2.event).parse).isSome = true) :
    (histScan etype l).isSome = true := by
  induction l with
  | nil => rfl
  | cons x rest ih =>
    obtain ⟨mid, f⟩ := x
    have hx := h (mid, f) (by simp)
    have hr : ∀ p ∈ rest, ((p.2.event).parse).isSome = true :=
      fun p hp => h p (by simp [hp])
    rw [histScan_cons]
    cases hp : (f.event).parse with
    | none => rw [hp] at hx; simp at hx
    | some payload =>
      have hrs := ih hr
      cases hs : histScan etype rest with
      | none => rw [hs] at hrs; simp at hrs
      | some tail =>
        by_cases hk : histKeep etype payload = true <;> simp [hk]

/-- C5: an envelope successfully appended via `publish` with type `T`
heads the sequence returned by a subsequent `get_event_history` for `T`
with sufficient limit — most-recent-first, the rest of the sequence
being the history of the older stream — and its `data`, `priority`,
`source` and `target` are identical to the published values. -/
theorem publish_history_round_trip (cfg : RetryConfig) (st : BusState)
    (eventId now : String) (etype : EventType) (data : EventData)
    (prio : EventPriority) (src tgt : Option String)
    (appendOk : Nat → Option String) (dlOk : Bool) (newMid : String)
    (limit : Nat) (eid : String) (hconn : st.connected = true)
    (hok : ((publish cfg st eventId now etype data prio src tgt appendOk
        dlOk newMid).2).outcome = .okId eid)
    (hwf : ∀ p ∈ st.mainStream, ((p.2.event).parse).isSome = true)
    (hlim : st.mainStream.length + 1 ≤ limit) :
    get_event_history true
        (.ok (xrevrange ((publish cfg st eventId now etype data prio src tgt
          appendOk dlOk newMid).1).mainStream limit)) (some etype)
      = ⟨newMid, some (mkEvent eventId now etype data prio src tgt)⟩
          :: get_event_history true
               (.ok (xrevrange st.mainStream (limit - 1))) (some etype)
    ∧ (mkEvent eventId now etype data prio src tgt).data = data
    ∧ (mkEvent eventId now etype data prio src tgt).priority = prio
    ∧ (mkEvent eventId now etype data prio src tgt).source = src
    ∧ (mkEvent eventId now etype data prio src tgt).target = tgt := by
  refine ⟨?_, rfl, rfl, rfl, rfl⟩
  simp only [publish, hconn, if_true] at hok ⊢
  obtain ⟨heid, ⟨j, happ⟩, hdl⟩ := publishLoop_okId cfg
    (mkEvent eventId now etype data prio src tgt) appendOk dlOk now
    cfg.max_attempts 0 eid hok
  rw [happ]
  rw [List.map_cons, List.map_nil,
    xrevrange_append_one st.mainStream _ limit (by omega)]
  have hrest : ∀ p ∈ xrevrange st.mainStream (limit - 1),
      ((p.2.event).parse).isSome = true := by
    intro p hp
    exact hwf p (List.mem_reverse.mp
      (List.mem_of_mem_take (by simpa [xrevrange] using hp)))
  obtain ⟨tail, htail⟩ := Option.isSome_iff_exists.mp
    (histScan_isSome (some etype) (xrevrange st.mainStream (limit - 1)) hrest)
  simp only [get_event_history, if_true, histScan_cons, mkStreamFields,
    Wire.parse, htail, histKeep, mkEvent, EventType.toStr]
  simp

/-- C5 witness: publishing a `GIT_PUSH` envelope onto an empty stream
and reading the history for that type returns exactly it, first. -/
theorem publish_history_round_trip_witness :
    (((publish (cfgN 3) ⟨true, [], [], []⟩ "e-1" "t0" .GIT_PUSH
        [("status", "active")] .NORMAL (some "hub") none (fun _ => none)
        true "m-9").2).outcome = PubOutcome.okId "e-1")
    ∧ get_event_history true
        (.ok (xrevrange ((publish (cfgN 3) ⟨true, [], [], []⟩ "e-1" "t0"
          .GIT_PUSH [("status", "active")] .NORMAL (some "hub") none
          (fun _ => none) true "m-9").1).mainStream 1)) (some .GIT_PUSH)
      = ⟨"m-9", some (mkEvent "e-1" "t0" .GIT_PUSH [("status", "active")]
          .NORMAL (some "hub") none)⟩
          :: get_event_history true (.ok (xrevrange [] 0)) (some .GIT_PUSH) :=
  ⟨by decide,
   (publish_history_round_trip (cfgN 3) ⟨true, [], [], []⟩ "e-1" "t0"
     .GIT_PUSH [("status", "active")] .NORMAL (some "hub") none
     (fun _ => none) true "m-9" 1 "e-1" rfl (by decide)
     (by intro p hp; simp at hp) (by decide)).1⟩

/-- After `xgroup_create`, the requested group exists. -/
theorem xgroup_create_mem (t : BrokerTopo) (s g : String) :
    (s, g) ∈ ((xgroup_create t s g).1).groups := by
  unfold xgroup_create
  by_cases h : (s, g) ∈ t.groups <;> simp [h]

/-- `xgroup_create` never removes an existing group. -/
theorem xgroup_create_preserves (t : BrokerTopo) (s g s' g' : String)
    (h : (s', g') ∈ t.groups) :
    (s', g') ∈ ((xgroup_create t s g).1).groups := by
  unfold xgroup_create
  by_cases hm : (s, g) ∈ t.groups <;> simp [hm, h]

/-- `xgroup_create` on an existing group raises `BUSYGROUP` and leaves
the topology unchanged. -/
theorem xgroup_create_exists (t : BrokerTopo) (s g : String)
    (h : (s, g) ∈ t.groups) : xgroup_create t s g = (t, true) := by
  simp [xgroup_create, h]

/-- C7: calling `connect()` a second time after a successful `connect()`
never raises — `BUSYGROUP` on an existing consumer group is swallowed —
it leaves the broker topology unchanged, and `get_stream_info` reports
the same group count before and after the second call. -/
theorem connect_twice_idempotent (t : BrokerTopo) :
    (connectOnce (connectOnce t).1).2 = .ok ()
    ∧ (connectOnce (connectOnce t).1).1 = (connectOnce t).1
    ∧ (∀ len : Nat,
        get_stream_info true (.ok len)
          (.ok (groupsOf (connectOnce (connectOnce t).1).1
            "agentic_agile_events"))
        = get_stream_info true (.ok len)
          (.ok (groupsOf (connectOnce t).1 "agentic_agile_events"))) := by
  have h1 : ("agentic_agile_events", "agentic_agile_consumers")
      ∈ ((connectOnce t).1).groups := by
    unfold connectOnce
    exact xgroup_create_preserves _ _ _ _ _ (xgroup_create_mem t _ _)
  have h2 : ("agentic_agile_failed_events", "agentic_agile_consumers_failed")
      ∈ ((connectOnce t).1).groups := by
    unfold connectOnce
    exact xgroup_create_mem _ _ _
  have hsame : (connectOnce (connectOnce t).1).1 = (connectOnce t).1 := by
    show ((xgroup_create (xgroup_create (connectOnce t).1 "agentic_agile_events"
      "agentic_agile_consumers").1 "agentic_agile_failed_events"
      "agentic_agile_consumers_failed").1) = (connectOnce t).1
    rw [xgroup_create_exists _ _ _ h1]
    rw [xgroup_create_exists _ _ _ h2]
  exact ⟨rfl, hsame, fun len => by rw [hsame]⟩

/-- C9: a `publish` call on a bus with no broker client raises
`RuntimeError` — not `EventPublishError` — before generating an id or
attempting any append, and the whole bus state (main stream,
dead-letter stream, subscriber registry) is unchanged. -/
theorem publish_not_connected_runtime_error (cfg : RetryConfig)
    (st : BusState) (eventId now : String) (etype : EventType)
    (data : EventData) (prio : EventPriority) (src tgt : Option String)
    (appendOk : Nat → Option String) (dlOk : Bool) (newMid : String)
    (h : st.connected = false) :
    publish cfg st eventId now etype data prio src tgt appendOk dlOk newMid
      = (st, ⟨.errNotConnected, false, [], [], none, none, []⟩) := by
  simp [publish, h]

/-- C9 witness: a disconnected bus with a nonempty registry. -/
theorem publish_not_connected_runtime_error_witness :
    (BusState.connected ⟨false, [], [], sampleSubs⟩ = false)
    ∧ publish (cfgN 3) ⟨false, [], [], sampleSubs⟩ "e-1" "t0" .GIT_PUSH
        [("status", "active")] .NORMAL none none (fun _ => none) true "m-9"
      = (⟨false, [], [], sampleSubs⟩,
         ⟨.errNotConnected, false, [], [], none, none, []⟩) :=
  ⟨rfl,
   publish_not_connected_runtime_error (cfgN 3) ⟨false, [], [], sampleSubs⟩
     "e-1" "t0" .GIT_PUSH [("status", "active")] .NORMAL none none
     (fun _ => none) true "m-9" rfl⟩

/-- C10: the introspection operations never raise: `get_event_history`
and `get_failed_events` return the empty list, and `get_stream_info`
the empty map, when the bus is not connected or when any backend error
occurs during the query — including an exception inside the history
scan itself. -/
theorem introspection_empty_when_unavailable :
    (∀ (xres : Except String (List (String × StreamFields)))
        (etype : Option EventType),
      get_event_history false xres etype = [])
    ∧ (∀ (e : String) (etype : Option EventType),
        get_event_history true (.error e) etype = [])
    ∧ (∀ (msgs : List (String × StreamFields)) (etype : Option EventType),
        histScan etype msgs = none →
        get_event_history true (.ok msgs) etype = [])
    ∧ (∀ (ir : Except String Nat) (gr : Except String (List GroupInfo)),
        get_stream_info false ir gr = none)
    ∧ (∀ (e : String) (gr : Except String (List GroupInfo)),
        get_stream_info true (.error e) gr = none)
    ∧ (∀ (ir : Except String Nat) (e : String),
        get_stream_info true ir (.error e) = none)
    ∧ (∀ (xres : Except String (List (String × FailedEntry))),
        get_failed_events false xres = [])
    ∧ (∀ (e : String), get_failed_events true (.error e) = []) := by
  refine ⟨fun xres etype => rfl, fun e etype => rfl, ?_, fun ir gr => rfl,
    fun e gr => rfl, ?_, fun xres => rfl, fun e => rfl⟩
  · intro msgs etype hscan
    simp [get_event_history, hscan]
  · intro ir e
    cases ir <;> rfl

/-- C10 witness: a scan aborted by an undecodable record yields the
empty history. -/
theorem introspection_empty_when_unavailable_witness :
    (histScan (some EventType.GIT_PUSH)
        [("m-1", ⟨Wire.bad "not json", "git.push", "normal", "", "", 1⟩)]
      = none)
    ∧ get_event_history true
        (.ok [("m-1", ⟨Wire.bad "not json", "git.push", "normal", "", "", 1⟩)])
        (some EventType.GIT_PUSH) = [] :=
  ⟨by decide,
   introspection_empty_when_unavailable.2.2.1
     [("m-1", ⟨Wire.bad "not json", "git.push", "normal", "", "", 1⟩)]
     (some EventType.GIT_PUSH) (by decide)⟩

end EventBus
